import Mathlib

set_option maxRecDepth 10000

/-!
# ScuffedChat realtime backbone — verification of the hub, change-feed
# listener and push dispatcher against their specification

Shallow embedding of the Go sources:
* `handlers` WebSocket hub (`src/unnamed/part_000`): `RunHub`,
  `IsUserOnline`, `BroadcastMessage`, `broadcastOnlineStatus`,
  `HandleWebSocket`, `Client.readPump`.
* Realtime listener (`src/unnamed/part_001` / `src/push.go`):
  `StartRealtimeListener`, `connectAndListen`.
* Push dispatcher (`src/pkg/push/push.go`, the revision wired by
  `main.go`): `handleNewMessage`, `sendPushNamespace`.

Go maps become association lists keyed by user identifier; Go channels
with capacity become bounded FIFO lists; the `select`/`default`
non-blocking send becomes a length test against the capacity; untyped
decoded JSON (`interface{}`) becomes the inductive `JVal` with the
type assertions of the source made explicit.
-/

namespace ScuffedChat

/-- Untyped decoded JSON, the image of Go's `interface{}` after
`encoding/json` unmarshalling: objects are association lists from field
name to value, numbers are left abstract as integers (no claim computes
with a numeric payload). -/
inductive JVal where
  | null
  | bool (b : Bool)
  | num (n : Int)
  | str (s : String)
  | arr (xs : List JVal)
  | obj (fields : List (String × JVal))

/-- Go map indexing `fields[k]` after JSON unmarshalling: first binding
for `k`, if any. -/
def jLookup : List (String × JVal) → String → Option JVal
  | [], _ => none
  | (k', v) :: rest, k => if k' = k then some v else jLookup rest k

/-- `models.WebSocketMessage`: `{Type string, Payload interface{}}`. -/
structure WSMessage where
  type : String
  payload : JVal

/-- `Client` from the hub source: connection instance identity (the Go
pointer), associated user identifier, and the outbound buffered channel
`Send` (`make(chan []byte, 256)`) modelled as its queued contents plus
its capacity. -/
structure Client where
  id : Nat
  userID : String
  sendBuf : List WSMessage
  sendCap : Nat

/-- The hub's `clients` map (`map[string]*Client`), keyed by user
identifier. -/
abbrev Registry := List (String × Client)

/-- Go map read `m[k]`. -/
def lookupClients : Registry → String → Option Client
  | [], _ => none
  | (k', c) :: rest, k => if k' = k then some c else lookupClients rest k

/-- Go map `delete(m, k)`. -/
def eraseClients : Registry → String → Registry
  | [], _ => []
  | (k', c) :: rest, k => if k' = k then eraseClients rest k else (k', c) :: eraseClients rest k

/-- Go map write `m[k] = c`: replaces any existing binding for `k`. -/
def insertClients (m : Registry) (k : String) (c : Client) : Registry :=
  eraseClients m k ++ [(k, c)]

/-- In-place update of the binding at `k` (used when the hub mutates a
client it just looked up, leaving the key set unchanged). -/
def updateClients (m : Registry) (k : String) (c : Client) : Registry :=
  m.map (fun kv => if kv.1 = k then (k, c) else kv)

/-- The non-blocking channel send `select { case c.Send <- msg: default: }`:
succeeds (appending to the FIFO buffer) exactly when the buffer is below
capacity; otherwise the `default` branch fires and the message is lost.
Returns the (possibly updated) client and whether the send succeeded. -/
def tryEnqueue (c : Client) (msg : WSMessage) : Client × Bool :=
  if c.sendBuf.length < c.sendCap then
    ({ c with sendBuf := c.sendBuf ++ [msg] }, true)
  else
    (c, false)

/-- The `online_status` frame built by `broadcastOnlineStatus`. -/
def onlineStatusFrame (userID : String) (online : Bool) : WSMessage :=
  { type := "online_status"
    payload := .obj [("user_id", .str userID), ("online", .bool online)] }

/-- `broadcastOnlineStatus`: for every registered client whose user
identifier differs from `userID`, attempt a non-blocking send of the
presence frame; a full buffer silently drops the frame (the `default:`
branch is empty) and the client stays registered. -/
def broadcastOnlineStatus (m : Registry) (userID : String) (online : Bool) : Registry :=
  m.map (fun kv =>
    (kv.1,
      if kv.2.userID ≠ userID then
        (tryEnqueue kv.2 (onlineStatusFrame userID online)).1
      else
        kv.2))

/-- `RunHub`, `case client := <-hub.register`: store the client under its
user identifier (replacing any previous binding) and broadcast
online status to the others. -/
def hubRegister (m : Registry) (c : Client) : Registry :=
  broadcastOnlineStatus (insertClients m c.userID c) c.userID true

/-- `RunHub`, `case client := <-hub.unregister`: if any entry exists for
the client's user identifier it is deleted (the source checks only key
presence, `if _, ok := hub.clients[client.UserID]; ok`, never instance
identity), then offline status is broadcast. -/
def hubUnregister (m : Registry) (c : Client) : Registry :=
  let m' := if (lookupClients m c.userID).isSome then eraseClients m c.userID else m
  broadcastOnlineStatus m' c.userID false

/-- `RunHub`, `case payload := <-hub.broadcast`: targeted delivery. If
the addressee is registered, a non-blocking send is attempted; on a full
buffer the connection is treated as dead: its channel is closed and the
entry deleted. Returns the new registry and the list of connection
instance ids whose channels were closed. -/
def hubBroadcastDeliver (m : Registry) (userID : String) (msg : WSMessage) :
    Registry × List Nat :=
  match lookupClients m userID with
  | some cl =>
      if cl.sendBuf.length < cl.sendCap then
        (updateClients m userID { cl with sendBuf := cl.sendBuf ++ [msg] }, [])
      else
        (eraseClients m userID, [cl.id])
  | none => (m, [])

/-- `IsUserOnline` (string case; the `interface{}` normalisation turns
every identifier into a string before the lookup). -/
def IsUserOnline (m : Registry) (userID : String) : Bool :=
  (lookupClients m userID).isSome

/-- A register or unregister command arriving on the hub's channels. -/
inductive HubEvent where
  | reg (c : Client)
  | unreg (c : Client)

def HubEvent.user : HubEvent → String
  | .reg c => c.userID
  | .unreg c => c.userID

def HubEvent.isRegister : HubEvent → Bool
  | .reg _ => true
  | .unreg _ => false

/-- One iteration of `RunHub`'s select on a register/unregister command. -/
def applyHubEvent (m : Registry) : HubEvent → Registry
  | .reg c => hubRegister m c
  | .unreg c => hubUnregister m c

/-- `RunHub` processing a finite command sequence in order. -/
def applyHubEvents (m : Registry) (es : List HubEvent) : Registry :=
  es.foldl applyHubEvent m

/-- Modelled from the spec sentence of C1 ("the most recent call for
`id`"): the last event of the sequence whose client carries identifier
`id`, if any. Spec-side definition, to be compared with the hub. -/
def specLastCallFor (id : String) : List HubEvent → Option HubEvent
  | [] => none
  | e :: es =>
    match specLastCallFor id es with
    | some e' => some e'
    | none => if e.user = id then some e else none

/-- Modelled from the spec sentence of C1: the most recent call
concerning `id` exists and is a register. -/
def specMostRecentIsRegister (id : String) (es : List HubEvent) : Bool :=
  match specLastCallFor id es with
  | some e => e.isRegister
  | none => false

/-! ## Registry lemmas -/

theorem lookup_erase_self (m : Registry) (k : String) :
    lookupClients (eraseClients m k) k = none := by
  induction m with
  | nil => rfl
  | cons kv rest ih =>
    obtain ⟨k', c⟩ := kv
    simp only [eraseClients]
    by_cases h : k' = k
    · simpa [h] using ih
    · simp [lookupClients, h, ih]

theorem lookup_erase_ne (m : Registry) (k k' : String) (h : k' ≠ k) :
    lookupClients (eraseClients m k) k' = lookupClients m k' := by
  induction m with
  | nil => rfl
  | cons kv rest ih =>
    obtain ⟨k₀, c⟩ := kv
    by_cases hk : k₀ = k
    · subst hk
      have hne : ¬ (k₀ = k') := fun he => h he.symm
      simp [eraseClients, lookupClients, hne, ih]
    · simp [eraseClients, lookupClients, hk, ih]

theorem lookup_append (m₁ m₂ : Registry) (k : String) :
    lookupClients (m₁ ++ m₂) k =
      (match lookupClients m₁ k with
       | some c => some c
       | none => lookupClients m₂ k) := by
  induction m₁ with
  | nil => rfl
  | cons kv rest ih =>
    obtain ⟨k', c⟩ := kv
    by_cases h : k' = k
    · simp [lookupClients, h]
    · simp [lookupClients, h, ih]

theorem lookup_insert_self (m : Registry) (k : String) (c : Client) :
    lookupClients (insertClients m k c) k = some c := by
  simp [insertClients, lookup_append, lookup_erase_self, lookupClients]

theorem lookup_insert_ne (m : Registry) (k k' : String) (c : Client) (h : k' ≠ k) :
    lookupClients (insertClients m k c) k' = lookupClients m k' := by
  have hne : ¬ (k = k') := fun he => h he.symm
  simp only [insertClients, lookup_append, lookup_erase_ne m k k' h]
  cases lookupClients m k' <;> simp [lookupClients, hne]

theorem lookup_map_vals (m : Registry) (f : Client → Client) (k : String) :
    lookupClients (m.map fun kv => (kv.1, f kv.2)) k = (lookupClients m k).map f := by
  induction m with
  | nil => rfl
  | cons kv rest ih =>
    obtain ⟨k', c⟩ := kv
    by_cases h : k' = k
    · simp [lookupClients, h]
    · simp [lookupClients, h, ih]

theorem lookup_broadcast (m : Registry) (uid : String) (online : Bool) (k : String) :
    lookupClients (broadcastOnlineStatus m uid online) k =
      (lookupClients m k).map (fun c =>
        if c.userID ≠ uid then (tryEnqueue c (onlineStatusFrame uid online)).1 else c) := by
  simpa [broadcastOnlineStatus] using
    lookup_map_vals m
      (fun c => if c.userID ≠ uid then (tryEnqueue c (onlineStatusFrame uid online)).1 else c) k

theorem isOnline_broadcast (m : Registry) (uid : String) (online : Bool) (k : String) :
    IsUserOnline (broadcastOnlineStatus m uid online) k = IsUserOnline m k := by
  simp only [IsUserOnline, lookup_broadcast]
  cases lookupClients m k <;> rfl

theorem isOnline_register (m : Registry) (c : Client) (k : String) :
    IsUserOnline (hubRegister m c) k = (if k = c.userID then true else IsUserOnline m k) := by
  simp only [hubRegister, isOnline_broadcast]
  by_cases h : k = c.userID
  · simp [IsUserOnline, h, lookup_insert_self]
  · simp [IsUserOnline, h, lookup_insert_ne m c.userID k c h]

theorem isOnline_unregister (m : Registry) (c : Client) (k : String) :
    IsUserOnline (hubUnregister m c) k = (if k = c.userID then false else IsUserOnline m k) := by
  simp only [hubUnregister, isOnline_broadcast]
  cases hlook : lookupClients m c.userID with
  | some cl =>
    by_cases h : k = c.userID
    · subst h
      simp [IsUserOnline, hlook, lookup_erase_self]
    · simp [IsUserOnline, hlook, lookup_erase_ne m c.userID k h, h]
  | none =>
    by_cases h : k = c.userID
    · subst h
      simp [IsUserOnline, hlook]
    · simp [hlook, h]

theorem isOnline_applyEvents (es : List HubEvent) (m : Registry) (id : String) :
    IsUserOnline (applyHubEvents m es) id =
      (match specLastCallFor id es with
       | some e => e.isRegister
       | none => IsUserOnline m id) := by
  induction es generalizing m with
  | nil => rfl
  | cons e es ih =>
    have step : applyHubEvents m (e :: es) = applyHubEvents (applyHubEvent m e) es := rfl
    rw [step, ih]
    cases hlast : specLastCallFor id es with
    | some e' => simp [specLastCallFor, hlast]
    | none =>
      simp only [specLastCallFor, hlast]
      cases e with
      | reg c =>
        by_cases h : c.userID = id
        · subst h
          simp [HubEvent.user, applyHubEvent, isOnline_register, HubEvent.isRegister]
        · have h' : ¬ (id = c.userID) := fun hc => h hc.symm
          simp [HubEvent.user, h, applyHubEvent, isOnline_register, h']
      | unreg c =>
        by_cases h : c.userID = id
        · subst h
          simp [HubEvent.user, applyHubEvent, isOnline_unregister, HubEvent.isRegister]
        · have h' : ¬ (id = c.userID) := fun hc => h hc.symm
          simp [HubEvent.user, h, applyHubEvent, isOnline_unregister, h']

/-- C1. For every finite sequence of register and unregister calls
processed by the hub, a subsequent `IsUserOnline id` query returns true
if and only if the most recent call in the sequence concerning
identifier `id` was a register. -/
theorem C1_isOnline_reflects_most_recent_call (es : List HubEvent) (id : String) :
    IsUserOnline (applyHubEvents [] es) id = specMostRecentIsRegister id es := by
  rw [isOnline_applyEvents es [] id, specMostRecentIsRegister]
  cases specLastCallFor id es <;> rfl

/-! ## C2: unregister and superseded connections -/

/-- A first connection for user `"u"`. -/
def connA : Client := { id := 1, userID := "u", sendBuf := [], sendCap := 256 }

/-- A second, distinct connection for the same user `"u"`. -/
def connB : Client := { id := 2, userID := "u", sendBuf := [], sendCap := 256 }

/-- C2 counterexample. After `register connA; register connB` the entry
for `"u"` holds `connB` (a different connection instance), yet
`unregister connA` still deletes it: the source checks only key
presence, never instance identity, so the newer entry is not left in
place as the claim states. -/
theorem C2_counterexample_unregister_removes_newer_entry :
    connA.id ≠ connB.id ∧
    lookupClients (applyHubEvents [] [.reg connA, .reg connB]) "u" = some connB ∧
    lookupClients (applyHubEvents [] [.reg connA, .reg connB, .unreg connA]) "u" = none := by
  refine ⟨by decide, rfl, rfl⟩

/-- C2 amended. `unregister(c)` removes the registry entry for `c`'s
user identifier whenever any entry exists, regardless of which
connection instance that entry refers to; in particular an entry that
was replaced by a newer connection for the same identifier is removed
as well (afterwards no entry remains for the identifier). -/
theorem C2_amended_unregister_removes_any_entry (m : Registry) (c : Client) :
    lookupClients (hubUnregister m c) c.userID = none := by
  simp only [hubUnregister]
  rw [lookup_broadcast]
  cases hlook : lookupClients m c.userID with
  | some cl => simp [hlook, lookup_erase_self]
  | none => simp [hlook]

/-! ## C3: typing frames -/

/-- The frame `readPump` forwards for a `typing` message: type
`"typing"`, payload rebuilt from scratch with the *sender's* user
identifier under `"user_id"` (any sender field the client supplied is
discarded) and the client's `"typing"` value (Go map indexing of a
missing key yields `nil`, i.e. JSON null). -/
def typingForward (senderUserID : String) (fields : List (String × JVal)) : WSMessage :=
  { type := "typing"
    payload := .obj [("user_id", .str senderUserID),
                     ("typing", (jLookup fields "typing").getD .null)] }

/-- The `switch wsMsg.Type` dispatch of `Client.readPump`: only
`"typing"` is interpreted; the payload must be a JSON object whose
`recipient_id` field is a string, otherwise nothing happens. On
success, returns the addressee and the forwarded frame handed to
`BroadcastMessage`. -/
def readPumpDispatch (senderUserID : String) (wsMsg : WSMessage) :
    Option (String × WSMessage) :=
  if wsMsg.type = "typing" then
    match wsMsg.payload with
    | .obj fields =>
      match jLookup fields "recipient_id" with
      | some (.str recipientID) => some (recipientID, typingForward senderUserID fields)
      | _ => none
    | _ => none
  else none

theorem lookup_update_ne (m : Registry) (k k' : String) (c : Client) (h : k' ≠ k) :
    lookupClients (updateClients m k c) k' = lookupClients m k' := by
  induction m with
  | nil => rfl
  | cons kv rest ih =>
    obtain ⟨k₀, c₀⟩ := kv
    have hmap : updateClients ((k₀, c₀) :: rest) k c =
        (if k₀ = k then (k, c) else (k₀, c₀)) :: updateClients rest k c := rfl
    rw [hmap]
    by_cases hk : k₀ = k
    · rw [if_pos hk]
      have hne : ¬ (k = k') := fun he => h he.symm
      have hne' : ¬ (k₀ = k') := by rw [hk]; exact hne
      simp [lookupClients, hne, hne', ih]
    · rw [if_neg hk]
      by_cases hk' : k₀ = k'
      · simp [lookupClients, hk']
      · simp [lookupClients, hk', ih]

theorem lookup_update_self (m : Registry) (k : String) (c cl : Client)
    (h : lookupClients m k = some cl) :
    lookupClients (updateClients m k c) k = some c := by
  induction m with
  | nil => simp [lookupClients] at h
  | cons kv rest ih =>
    obtain ⟨k₀, c₀⟩ := kv
    have hmap : updateClients ((k₀, c₀) :: rest) k c =
        (if k₀ = k then (k, c) else (k₀, c₀)) :: updateClients rest k c := rfl
    rw [hmap]
    by_cases hk : k₀ = k
    · rw [if_pos hk]
      simp [lookupClients]
    · rw [if_neg hk]
      simp only [lookupClients, if_neg hk] at h ⊢
      exact ih h

/-- C3. An inbound `typing` frame from sender `S` naming recipient `P`
is forwarded with type `"typing"` and `S`'s user identifier as
`user_id`; the hub delivers it only to the connection registered for
`P`: if `P` is unregistered nothing at all happens, every identifier
other than `P` is untouched, and a registered `P` with buffer room
receives exactly the forwarded frame. -/
theorem C3_typing_delivered_only_to_recipient (m : Registry) (sender : Client)
    (wsMsg : WSMessage) (rid : String) (fwd : WSMessage)
    (h : readPumpDispatch sender.userID wsMsg = some (rid, fwd)) :
    fwd.type = "typing" ∧
    (∃ t, fwd.payload = .obj [("user_id", .str sender.userID), ("typing", t)]) ∧
    (lookupClients m rid = none → hubBroadcastDeliver m rid fwd = (m, [])) ∧
    (∀ uid, uid ≠ rid →
      lookupClients (hubBroadcastDeliver m rid fwd).1 uid = lookupClients m uid) ∧
    (∀ cl, lookupClients m rid = some cl → cl.sendBuf.length < cl.sendCap →
      lookupClients (hubBroadcastDeliver m rid fwd).1 rid =
        some { cl with sendBuf := cl.sendBuf ++ [fwd] }) := by
  have hfwd : fwd.type = "typing" ∧
      ∃ t, fwd.payload = .obj [("user_id", .str sender.userID), ("typing", t)] := by
    cases hp : wsMsg.payload with
    | obj fields =>
      cases hr : jLookup fields "recipient_id" with
      | some v =>
        cases v with
        | str s =>
          simp only [readPumpDispatch, hp, hr] at h
          by_cases hty : wsMsg.type = "typing"
          · rw [if_pos hty] at h
            have h' := Option.some.inj h
            have hf : fwd = typingForward sender.userID fields := by
              simpa using (congrArg Prod.snd h').symm
            subst hf
            exact ⟨rfl, ⟨(jLookup fields "typing").getD .null, rfl⟩⟩
          · rw [if_neg hty] at h
            exact Option.noConfusion h
        | null => simp [readPumpDispatch, hp, hr] at h
        | bool b => simp [readPumpDispatch, hp, hr] at h
        | num n => simp [readPumpDispatch, hp, hr] at h
        | arr xs => simp [readPumpDispatch, hp, hr] at h
        | obj fs => simp [readPumpDispatch, hp, hr] at h
      | none => simp [readPumpDispatch, hp, hr] at h
    | null => simp [readPumpDispatch, hp] at h
    | bool b => simp [readPumpDispatch, hp] at h
    | num n => simp [readPumpDispatch, hp] at h
    | str s => simp [readPumpDispatch, hp] at h
    | arr xs => simp [readPumpDispatch, hp] at h
  refine ⟨hfwd.1, hfwd.2, ?_, ?_, ?_⟩
  · intro hnone
    simp [hubBroadcastDeliver, hnone]
  · intro uid huid
    unfold hubBroadcastDeliver
    cases hl : lookupClients m rid with
    | none => rfl
    | some cl =>
      by_cases hc : cl.sendBuf.length < cl.sendCap
      · simp [hc, lookup_update_ne m rid uid _ huid]
      · simp [hc, lookup_erase_ne m rid uid huid]
  · intro cl hl hc
    simp [hubBroadcastDeliver, hl, hc, lookup_update_self m rid _ cl hl]

/-- C3 witness data: a sender, a registered recipient, a well-formed
typing frame and the frame the hub forwards for it. -/
def senderW : Client := { id := 7, userID := "s", sendBuf := [], sendCap := 256 }

def recipientW : Client := { id := 8, userID := "p", sendBuf := [], sendCap := 256 }

def typingMsgW : WSMessage :=
  { type := "typing"
    payload := .obj [("recipient_id", .str "p"), ("typing", .bool true)] }

def fwdW : WSMessage := typingForward "s" [("recipient_id", .str "p"), ("typing", .bool true)]

/-- C3 witness: on the concrete registry `[("p", recipientW)]`, the
typing frame from `senderW` lands in the recipient's buffer. -/
theorem C3_witness :
    lookupClients (hubBroadcastDeliver [("p", recipientW)] "p" fwdW).1 "p" =
      some { recipientW with sendBuf := [fwdW] } := by
  have h := C3_typing_delivered_only_to_recipient
    [("p", recipientW)] senderW typingMsgW "p" fwdW rfl
  have h' := h.2.2.2.2 recipientW rfl (by decide)
  simpa [recipientW] using h'

/-! ## Change feed listener (`connectAndListen` / `StartRealtimeListener`)

The read loop, heartbeat goroutine and supervising retry loop are
identical in the two revisions of the listener (`src/unnamed/part_001`
and `src/push.go`); the model below follows that common code. The
heartbeat goroutine and the read loop run concurrently on the same
link; their actions are modelled as one interleaved event sequence. -/

/-- One occurrence inside a listener session: a successful read (with
the decoded wire bytes: `none` when `json.Unmarshal` into
`[]interface{}` fails, i.e. invalid JSON or a non-array value), a
transport read error, or a tick of the 30s heartbeat ticker whose
`WriteJSON` either succeeds or fails. -/
inductive SessEvent where
  | read (m : Option JVal)
  | readErr
  | hbTick (writeFails : Bool)

/-- The body of the read loop on one inbound frame, after
`json.Unmarshal` into `[]interface{}`: returns the changed record
handed to `handleNewMessage` when the frame is a well-shaped
`postgres_changes` INSERT notification, and `none` (the loop's
`continue`) otherwise. Every type assertion of the source is explicit:
`msg[3].(string)`, `msg[4].(map[string]interface{})`,
`payload["data"].(map[string]interface{})`, `data["type"].(string)`
(defaulting to `""`), `data["record"].(map[string]interface{})`. -/
def processFrame (m : Option JVal) : Option (List (String × JVal)) :=
  match m with
  | none => none
  | some j =>
    match j with
    | .arr elems =>
      if elems.length < 5 then none
      else
        match elems[3]? with
        | some (JVal.str event) =>
          if event = "postgres_changes" then
            match elems[4]? with
            | some (JVal.obj payloadFields) =>
              match jLookup payloadFields "data" with
              | some (JVal.obj dataFields) =>
                let eventType :=
                  match jLookup dataFields "type" with
                  | some (JVal.str s) => s
                  | _ => ""
                if eventType = "INSERT" then
                  match jLookup dataFields "record" with
                  | some (JVal.obj recordFields) => some recordFields
                  | _ => none
                else none
              | _ => none
            | _ => none
          else none
        | _ => none
    | _ => none

/-- Modelled from the spec sentences of C6: a frame is malformed when it
is not a JSON array, has fewer than five elements, carries a non-string
event field, or its payload lacks the expected nested shape
(`payload` not an object, `payload["data"]` not an object, or
`data["record"]` not an object). Spec-side definition, to be compared
with `processFrame`. -/
def malformedFrame (m : Option JVal) : Bool :=
  match m with
  | none => true
  | some j =>
    match j with
    | .arr elems =>
      if elems.length < 5 then true
      else
        match elems[3]? with
        | some (JVal.str _) =>
          (match elems[4]? with
           | some (JVal.obj payloadFields) =>
             (match jLookup payloadFields "data" with
              | some (JVal.obj dataFields) =>
                (match jLookup dataFields "record" with
                 | some (JVal.obj _) => false
                 | some _ => true
                 | none => true)
              | some _ => true
              | none => true)
           | some _ => true
           | none => false)
        | _ => true
    | _ => true

/-- State of one `connectAndListen` session: whether the heartbeat
goroutine is still running, how many heartbeat frames it wrote, the
records handed to `handleNewMessage`, whether the link is still open,
and whether `connectAndListen` has returned (handing control to the
supervising retry loop). -/
structure SessState where
  hbAlive : Bool
  hbSent : Nat
  handled : List (List (String × JVal))
  linkOpen : Bool
  returned : Bool

/-- Session state right after a successful dial: link open, heartbeat
goroutine started, nothing handled yet. -/
def initSess : SessState :=
  { hbAlive := true, hbSent := 0, handled := [], linkOpen := true, returned := false }

/-- Run one `connectAndListen` session over an interleaved event
sequence. A transport read error makes the read loop `return`
(`defer c.Close()` then tears the link down) and stops the session; a
decoded frame is processed by the loop body, a malformed one falling
through to the next read; a heartbeat tick either writes a frame or, on
a write error, makes only the heartbeat goroutine `return` — the link
and the read loop are untouched. -/
def runSession (s : SessState) : List SessEvent → SessState
  | [] => s
  | .readErr :: _ => { s with linkOpen := false, returned := true }
  | .read m :: rest =>
    match processFrame m with
    | some r => runSession { s with handled := s.handled ++ [r] } rest
    | none => runSession s rest
  | .hbTick fail :: rest =>
    if s.hbAlive then
      if fail then runSession { s with hbAlive := false } rest
      else runSession { s with hbSent := s.hbSent + 1 } rest
    else runSession s rest

/-- `connectAndListen`: on a dial error it logs and returns at once
(the link never opens); otherwise it runs the session. -/
def connectAndListenM (dialOk : Bool) (evs : List SessEvent) : SessState :=
  if dialOk then runSession initSess evs
  else { hbAlive := false, hbSent := 0, handled := [], linkOpen := false, returned := true }

/-- `time.Sleep(5 * time.Second)` between reconnection attempts in
`StartRealtimeListener`. -/
def retryDelaySeconds : Nat := 5

/-- One observable step of the supervising loop: a completed
`connectAndListen` session (with its final state) or the fixed sleep. -/
inductive SupStep where
  | session (final : SessState)
  | sleepSeconds (n : Nat)

/-- The trace of the first `n` iterations of `StartRealtimeListener`'s
`for { connectAndListen(...); time.Sleep(5 * time.Second) }` loop,
given for every iteration the dial outcome and session events. The
loop body is unconditional: no session outcome alters or stops it. -/
def superviseTrace (sessions : Nat → Bool × List SessEvent) : Nat → List SupStep
  | 0 => []
  | n + 1 =>
    superviseTrace sessions n ++
      [SupStep.session (connectAndListenM (sessions n).1 (sessions n).2),
       SupStep.sleepSeconds retryDelaySeconds]

/-! ## Listener lemmas and claims C6, C7, C8 -/

theorem processFrame_eq_none_of_malformed (m : Option JVal)
    (h : malformedFrame m = true) : processFrame m = none := by
  cases m with
  | none => rfl
  | some j =>
    cases j with
    | null => rfl
    | bool b => rfl
    | num n => rfl
    | str s => rfl
    | obj fs => rfl
    | arr elems =>
      by_cases hlen : elems.length < 5
      · simp [processFrame, hlen]
      · cases h3 : elems[3]? with
        | none => simp [processFrame, hlen, h3]
        | some v =>
          cases v with
          | null => simp [processFrame, hlen, h3]
          | bool b => simp [processFrame, hlen, h3]
          | num n => simp [processFrame, hlen, h3]
          | arr l => simp [processFrame, hlen, h3]
          | obj l => simp [processFrame, hlen, h3]
          | str event =>
            by_cases hev : event = "postgres_changes"
            · subst hev
              cases h4 : elems[4]? with
              | none => simp [processFrame, hlen, h3, h4]
              | some w =>
                cases w with
                | null => simp [processFrame, hlen, h3, h4]
                | bool b => simp [processFrame, hlen, h3, h4]
                | num n => simp [processFrame, hlen, h3, h4]
                | str s => simp [processFrame, hlen, h3, h4]
                | arr l => simp [processFrame, hlen, h3, h4]
                | obj payloadFields =>
                  cases hd : jLookup payloadFields "data" with
                  | none => simp [processFrame, hlen, h3, h4, hd]
                  | some d =>
                    cases d with
                    | null => simp [processFrame, hlen, h3, h4, hd]
                    | bool b => simp [processFrame, hlen, h3, h4, hd]
                    | num n => simp [processFrame, hlen, h3, h4, hd]
                    | str s => simp [processFrame, hlen, h3, h4, hd]
                    | arr l => simp [processFrame, hlen, h3, h4, hd]
                    | obj dataFields =>
                      cases hrec : jLookup dataFields "record" with
                      | none => simp [processFrame, hlen, h3, h4, hd, hrec]
                      | some r =>
                        cases r with
                        | obj recordFields =>
                          exfalso
                          simp [malformedFrame, hlen, h3, h4, hd, hrec] at h
                        | null => simp [processFrame, hlen, h3, h4, hd, hrec]
                        | bool b => simp [processFrame, hlen, h3, h4, hd, hrec]
                        | num n => simp [processFrame, hlen, h3, h4, hd, hrec]
                        | str s => simp [processFrame, hlen, h3, h4, hd, hrec]
                        | arr l => simp [processFrame, hlen, h3, h4, hd, hrec]
            · simp [processFrame, hlen, h3, hev]

theorem runSession_read_some (s : SessState) (m : Option JVal)
    (r : List (String × JVal)) (rest : List SessEvent) (hp : processFrame m = some r) :
    runSession s (.read m :: rest) = runSession { s with handled := s.handled ++ [r] } rest := by
  simp [runSession, hp]

theorem runSession_read_none (s : SessState) (m : Option JVal)
    (rest : List SessEvent) (hp : processFrame m = none) :
    runSession s (.read m :: rest) = runSession s rest := by
  simp [runSession, hp]

theorem runSession_hb_ok (s : SessState) (rest : List SessEvent) (hb : s.hbAlive = true) :
    runSession s (.hbTick false :: rest) = runSession { s with hbSent := s.hbSent + 1 } rest := by
  simp [runSession, hb]

theorem runSession_hb_fail (s : SessState) (rest : List SessEvent) (hb : s.hbAlive = true) :
    runSession s (.hbTick true :: rest) = runSession { s with hbAlive := false } rest := by
  simp [runSession, hb]

theorem runSession_hb_dead (s : SessState) (fail : Bool) (rest : List SessEvent)
    (hb : s.hbAlive = false) :
    runSession s (.hbTick fail :: rest) = runSession s rest := by
  simp [runSession, hb]

theorem runSession_returned (s : SessState) (evs : List SessEvent)
    (hs : s.returned = false) :
    ((runSession s evs).returned = true ↔ SessEvent.readErr ∈ evs) := by
  induction evs generalizing s with
  | nil => simp [runSession, hs]
  | cons e rest ih =>
    cases e with
    | readErr => simp [runSession]
    | read m =>
      cases hp : processFrame m with
      | some r =>
        rw [runSession_read_some s m r rest hp,
          ih { s with handled := s.handled ++ [r] } hs]
        simp
      | none =>
        rw [runSession_read_none s m rest hp, ih s hs]
        simp
    | hbTick fail =>
      by_cases hb : s.hbAlive
      · cases fail with
        | false =>
          rw [runSession_hb_ok s rest hb, ih { s with hbSent := s.hbSent + 1 } hs]
          simp
        | true =>
          rw [runSession_hb_fail s rest hb, ih { s with hbAlive := false } hs]
          simp
      · rw [runSession_hb_dead s fail rest (by simpa using hb), ih s hs]
        simp

theorem runSession_teardown (s : SessState) (evs : List SessEvent)
    (h : SessEvent.readErr ∈ evs) :
    (runSession s evs).returned = true ∧ (runSession s evs).linkOpen = false := by
  induction evs generalizing s with
  | nil => cases h
  | cons e rest ih =>
    cases e with
    | readErr => exact ⟨rfl, rfl⟩
    | read m =>
      have h' : SessEvent.readErr ∈ rest := by simpa using h
      cases hp : processFrame m with
      | some r =>
        rw [runSession_read_some s m r rest hp]
        exact ih _ h'
      | none =>
        rw [runSession_read_none s m rest hp]
        exact ih _ h'
    | hbTick fail =>
      have h' : SessEvent.readErr ∈ rest := by simpa using h
      by_cases hb : s.hbAlive
      · cases fail with
        | false =>
          rw [runSession_hb_ok s rest hb]
          exact ih _ h'
        | true =>
          rw [runSession_hb_fail s rest hb]
          exact ih _ h'
      · rw [runSession_hb_dead s fail rest (by simpa using hb)]
        exact ih _ h'

/-- C6. Every malformed change-feed frame (not a JSON array, fewer than
five elements, non-string event field, or payload lacking the expected
nested shape) is skipped: the read loop's state is exactly what it
would be without the frame and the loop moves on to the next read.
Only a transport read error makes the loop return: the session ends in
the returned state if and only if the event sequence contains a read
error. -/
theorem C6_malformed_frames_skipped :
    (∀ (s : SessState) (m : Option JVal) (rest : List SessEvent),
        malformedFrame m = true →
        runSession s (.read m :: rest) = runSession s rest) ∧
    (∀ evs : List SessEvent,
        ((runSession initSess evs).returned = true ↔ SessEvent.readErr ∈ evs)) := by
  constructor
  · intro s m rest h
    simp [runSession, processFrame_eq_none_of_malformed m h]
  · intro evs
    exact runSession_returned initSess evs rfl

/-- C6 witness: a three-element array frame is skipped (the session
with it equals the session without it), and the loop then ends only at
the read error. -/
theorem C6_witness :
    runSession initSess [.read (some (.arr [.null])), .readErr] =
      runSession initSess [.readErr] ∧
    (runSession initSess [.read (some (.arr [.null])), .readErr]).returned = true := by
  refine ⟨C6_malformed_frames_skipped.1 initSess (some (.arr [.null])) [.readErr] rfl, ?_⟩
  exact (C6_malformed_frames_skipped.2 [.read (some (.arr [.null])), .readErr]).mpr (by simp)

/-- C7. Every dial failure and every read failure ends the
`connectAndListen` session with the link torn down; the supervising
loop then sleeps the fixed delay (5 seconds, never anything else) and
starts the next session, and the trace is defined for every iteration
count (2 steps per iteration, indefinitely, no termination). -/
theorem C7_retry_after_fixed_delay_indefinitely :
    (∀ (dialOk : Bool) (evs : List SessEvent),
        dialOk = false ∨ SessEvent.readErr ∈ evs →
        (connectAndListenM dialOk evs).returned = true ∧
        (connectAndListenM dialOk evs).linkOpen = false) ∧
    (∀ (sessions : Nat → Bool × List SessEvent) (n : Nat),
        superviseTrace sessions (n + 1) =
          superviseTrace sessions n ++
            [SupStep.session (connectAndListenM (sessions n).1 (sessions n).2),
             SupStep.sleepSeconds retryDelaySeconds] ∧
        (superviseTrace sessions n).length = 2 * n) ∧
    retryDelaySeconds = 5 := by
  refine ⟨?_, ?_, rfl⟩
  · rintro dialOk evs (hd | hr)
    · subst hd
      exact ⟨rfl, rfl⟩
    · cases dialOk with
      | false => exact ⟨rfl, rfl⟩
      | true => simpa [connectAndListenM] using runSession_teardown initSess evs hr
  · intro sessions n
    refine ⟨rfl, ?_⟩
    induction n with
    | zero => rfl
    | succ k ih =>
      simp only [superviseTrace, List.length_append, ih]
      simp
      omega

/-- C7 witness: one failed session (immediate read error) tears the
link down, and the first supervisor iteration is that session followed
by the 5-second sleep. -/
theorem C7_witness :
    (connectAndListenM true [SessEvent.readErr]).returned = true ∧
    superviseTrace (fun _ => (true, [SessEvent.readErr])) 1 =
      [SupStep.session (connectAndListenM true [SessEvent.readErr]),
       SupStep.sleepSeconds 5] := by
  refine ⟨(C7_retry_after_fixed_delay_indefinitely.1 true [SessEvent.readErr]
    (Or.inr (by simp))).1, ?_⟩
  have h := (C7_retry_after_fixed_delay_indefinitely.2.1
    (fun _ => (true, [SessEvent.readErr])) 0).1
  rw [h]
  rfl

/-- C8 counterexample. A heartbeat write failure does NOT do what a
read error does: after `hbTick` fails the session has not returned and
the link is still open, whereas a read error returns and closes the
link. The source's heartbeat goroutine ends itself (`return`) on a
write error without touching the connection or the read loop. -/
theorem C8_counterexample_heartbeat_failure_is_not_teardown :
    (runSession initSess [.hbTick true]).returned = false ∧
    (runSession initSess [.hbTick true]).linkOpen = true ∧
    (runSession initSess [.readErr]).returned = true ∧
    (runSession initSess [.readErr]).linkOpen = false := by
  exact ⟨rfl, rfl, rfl, rfl⟩

theorem runSession_hbDead_no_heartbeats (s : SessState) (evs : List SessEvent)
    (hb : s.hbAlive = false) : (runSession s evs).hbSent = s.hbSent := by
  induction evs generalizing s with
  | nil => rfl
  | cons e rest ih =>
    cases e with
    | readErr => rfl
    | read m =>
      cases hp : processFrame m with
      | some r =>
        rw [runSession_read_some s m r rest hp]
        exact ih _ hb
      | none =>
        rw [runSession_read_none s m rest hp]
        exact ih _ hb
    | hbTick fail =>
      rw [runSession_hb_dead s fail rest hb]
      exact ih _ hb

/-- C8 amended. A heartbeat write failure terminates only the heartbeat
sub-task: the session continues exactly as it would with the heartbeat
goroutine gone (no further heartbeat frame is ever written in that
session), the link is not torn down by it, and only a read error makes
the session return with the link closed, from which the supervising
loop reconnects. -/
theorem C8_amended_heartbeat_failure_kills_only_heartbeat :
    (∀ (s : SessState) (rest : List SessEvent), s.hbAlive = true →
        runSession s (.hbTick true :: rest) =
          runSession { s with hbAlive := false } rest) ∧
    (∀ (s : SessState) (evs : List SessEvent), s.hbAlive = false →
        (runSession s evs).hbSent = s.hbSent) ∧
    (∀ (s : SessState) (rest : List SessEvent),
        runSession s (.readErr :: rest) = { s with linkOpen := false, returned := true }) := by
  refine ⟨?_, runSession_hbDead_no_heartbeats, fun s rest => rfl⟩
  intro s rest hb
  simp [runSession, hb]

/-- C8 witness: from a live heartbeat, one failing write leaves the
session equal to one whose heartbeat goroutine is gone, and no later
tick writes a heartbeat frame. -/
theorem C8_amended_witness :
    runSession initSess [SessEvent.hbTick true, SessEvent.hbTick false] =
      runSession { initSess with hbAlive := false } [SessEvent.hbTick false] ∧
    (runSession { initSess with hbAlive := false } [SessEvent.hbTick false]).hbSent = 0 := by
  exact ⟨C8_amended_heartbeat_failure_kills_only_heartbeat.1 initSess
      [SessEvent.hbTick false] rfl,
    C8_amended_heartbeat_failure_kills_only_heartbeat.2.1
      { initSess with hbAlive := false } [SessEvent.hbTick false] rfl⟩

/-! ## Push dispatcher (`pkg/push/push.go`, the revision wired by `main.go`) -/

/-- A row of `push_subscriptions` as fetched by
`getSubscriptionsFromSupabase`. -/
structure PushSubscription where
  endpoint : String
  p256dh : String
  auth : String

/-- The notification body computed at the top of `sendPushNamespace`:
a fixed placeholder for image-typed messages, otherwise the raw text,
truncated to its first 50 characters plus `"..."` when longer. (Go's
`len`/slicing count bytes; content is modelled as its character
sequence, which agrees on ASCII text.) -/
def pushBody (content msgType : String) : String :=
  if msgType = "image" then "Sent an image"
  else if content.length > 50 then content.take 50 ++ "..." else content

/-- The JSON payload marshalled for `webpush.SendNotification`. -/
structure PushPayload where
  title : String
  body : String
  url : String

/-- `{"title": "New Message", "body": <computed body>, "url": "/app"}`. -/
def pushPayload (content msgType : String) : PushPayload :=
  { title := "New Message", body := pushBody content msgType, url := "/app" }

/-- The outcome of one `webpush.SendNotification` call: a transport
error, or a response with an HTTP status code. -/
inductive PushOutcome where
  | netError
  | status (code : Nat)

/-- Observable side effects of one delivery: the send attempt itself
(with its payload), the error log line, and the `DELETE` call issued by
`deleteSubscriptionFromSupabase`. -/
inductive PushEffect where
  | attempt (endpoint : String) (payload : PushPayload)
  | logError
  | deleteCall (endpoint : String)

/-- `resp.StatusCode == 410 || resp.StatusCode == 401 || resp.StatusCode == 403`:
the statuses the dispatcher treats as "endpoint gone or no longer
authorized". -/
def goneStatus (code : Nat) : Bool :=
  code == 410 || code == 401 || code == 403

/-- `sendPushNamespace` for one subscription, given its delivery
outcome: always exactly one send attempt; a transport error is logged
and the function returns (no retry, no deletion); a gone/unauthorized
status triggers exactly one deletion call for this subscription's
endpoint; any other status does nothing further. -/
def sendPushNamespace (sub : PushSubscription) (content msgType : String)
    (outcome : PushOutcome) : List PushEffect :=
  PushEffect.attempt sub.endpoint (pushPayload content msgType) ::
    (match outcome with
     | .netError => [PushEffect.logError]
     | .status code =>
       if goneStatus code then [PushEffect.deleteCall sub.endpoint] else [])

/-- The dispatch loop of `handleNewMessage`:
`for _, sub := range subscriptions { go sendPushNamespace(sub, content, msgType) }` —
one independent delivery per subscription, each seeing only its own
outcome. -/
def dispatchBatch (subs : List PushSubscription) (content msgType : String)
    (oc : PushSubscription → PushOutcome) : List PushEffect :=
  match subs with
  | [] => []
  | sub :: rest =>
    sendPushNamespace sub content msgType (oc sub) ++ dispatchBatch rest content msgType oc

/-- The deletion calls among a list of effects. -/
def deleteCalls (effs : List PushEffect) : List String :=
  effs.filterMap (fun e =>
    match e with
    | .deleteCall ep => some ep
    | _ => none)

/-- The send attempts among a list of effects. -/
def attempts (effs : List PushEffect) : List (String × PushPayload) :=
  effs.filterMap (fun e =>
    match e with
    | .attempt ep p => some (ep, p)
    | _ => none)

/-- C4. Per delivery there is exactly one send attempt (no retry); the
deletion calls are exactly one — for that subscription's endpoint —
when the status means gone/unauthorized (410, 401, 403), and none for
a transport error or any other status; and the batch decomposes
per-subscription, each delivery's effects a function of its own
subscription and outcome alone, so one subscription's failure cannot
prevent or alter the attempts for the others. -/
theorem C4_gone_deleted_once_others_unaffected :
    (∀ (sub : PushSubscription) (content msgType : String) (oc : PushOutcome),
        deleteCalls (sendPushNamespace sub content msgType oc) =
          (match oc with
           | .status code => if goneStatus code then [sub.endpoint] else []
           | .netError => []) ∧
        attempts (sendPushNamespace sub content msgType oc) =
          [(sub.endpoint, pushPayload content msgType)]) ∧
    (∀ (subs : List PushSubscription) (content msgType : String)
        (oc : PushSubscription → PushOutcome),
        dispatchBatch subs content msgType oc =
          (subs.map (fun s => sendPushNamespace s content msgType (oc s))).flatten) := by
  constructor
  · intro sub content msgType oc
    constructor
    · cases oc with
      | netError => rfl
      | status code =>
        by_cases hg : goneStatus code = true
        · simp [sendPushNamespace, deleteCalls, hg]
        · simp [sendPushNamespace, deleteCalls, hg]
    · cases oc with
      | netError => rfl
      | status code =>
        by_cases hg : goneStatus code = true
        · simp [sendPushNamespace, attempts, hg]
        · simp [sendPushNamespace, attempts, hg]
  · intro subs content msgType oc
    induction subs with
    | nil => rfl
    | cons sub rest ih => simp [dispatchBatch, ih]

/-- The example text of spec §8, claimed there to be 59 characters. -/
def exampleText : String :=
  "Hello world, this message is over fifty characters long!!"

/-- C5 counterexample: the example text has 57 characters, not 59 as
the claim states; its truncation behaviour is nevertheless exactly the
claimed one (first 50 characters plus `"..."`). -/
theorem C5_counterexample_example_text_is_57_chars :
    exampleText.length = 57 ∧ ¬ (exampleText.length = 59) ∧
    pushBody exampleText "text" =
      "Hello world, this message is over fifty characters" ++ "..." := by
  refine ⟨by decide, by decide, by decide⟩

/-- C5 amended. An image-typed record always renders as the fixed
placeholder body, never the raw content; otherwise the body is the raw
text unchanged when at most 50 characters, and the first 50 characters
followed by `"..."` when longer — so the 57-character (not
59-character) example text truncates to its first 50 characters plus
`"..."`. -/
theorem C5_amended_body_placeholder_and_truncation (content msgType : String) :
    (msgType = "image" → pushBody content msgType = "Sent an image") ∧
    (msgType ≠ "image" → content.length ≤ 50 → pushBody content msgType = content) ∧
    (msgType ≠ "image" → content.length > 50 →
      pushBody content msgType = content.take 50 ++ "...") := by
  refine ⟨?_, ?_, ?_⟩
  · intro h
    simp [pushBody, h]
  · intro h hl
    have hnot : ¬ content.length > 50 := by omega
    simp [pushBody, h, hnot]
  · intro h hl
    simp [pushBody, h, hl]

/-- C5 witness: the example text truncates, a short text passes
through unchanged, and an image record gets the placeholder. -/
theorem C5_witness :
    pushBody exampleText "text" = exampleText.take 50 ++ "..." ∧
    pushBody "hi" "text" = "hi" ∧
    pushBody exampleText "image" = "Sent an image" := by
  refine ⟨(C5_amended_body_placeholder_and_truncation exampleText "text").2.2
      (by decide) (by decide),
    (C5_amended_body_placeholder_and_truncation "hi" "text").2.1
      (by decide) (by decide),
    (C5_amended_body_placeholder_and_truncation exampleText "image").1 rfl⟩

/-! ## C9: anonymous connections -/

/-- `HandleWebSocket`'s user identification: a session-authenticated
user yields its numeric id formatted in decimal
(`fmt.Sprintf("%d", user.ID)`); otherwise the `user_id` query
parameter is used verbatim — the empty string (parameter absent) is
allowed through with only a log line. -/
def resolveUserID (sessionUserId : Option Int) (queryUserID : String) : String :=
  match sessionUserId with
  | some uid => toString uid
  | none => queryUserID

/-- `HandleWebSocket`: after a successful transport upgrade, a client
with a 256-slot send buffer is created and handed to `hub.register`;
a failed upgrade just returns. No identifier check is performed. -/
def handleWebSocket (sessionUserId : Option Int) (queryUserID : String)
    (upgradeOk : Bool) (connId : Nat) : Option Client :=
  if upgradeOk then
    some { id := connId, userID := resolveUserID sessionUserId queryUserID
           sendBuf := [], sendCap := 256 }
  else none

theorem register_lookup_self (m : Registry) (c : Client) :
    lookupClients (hubRegister m c) c.userID = some c := by
  rw [hubRegister, lookup_broadcast, lookup_insert_self]
  simp

/-- A registered client whose user identifier is `"u"`, watching the
anonymous registrations of C9. -/
def otherW : Client := { id := 5, userID := "u", sendBuf := [], sendCap := 256 }

/-- A first anonymous connection (no session, no query parameter). -/
def anonW : Client := { id := 9, userID := "", sendBuf := [], sendCap := 256 }

/-- A second anonymous connection. -/
def anonW2 : Client := { id := 10, userID := "", sendBuf := [], sendCap := 256 }

/-- C9. A connection upgrading with no session user and no `user_id`
query parameter is accepted and registered under the empty-string
identifier; every anonymous registration lands in (and replaces) the
single registry slot for `""`; and the presence broadcast for the
empty identifier is emitted to other clients exactly like any other
registration's. -/
theorem C9_anonymous_register_under_empty_string :
    (∀ connId : Nat,
        handleWebSocket none "" true connId =
          some { id := connId, userID := "", sendBuf := [], sendCap := 256 }) ∧
    (∀ (m : Registry) (c : Client), c.userID = "" →
        lookupClients (hubRegister m c) "" = some c) ∧
    (∀ (m : Registry) (c c' : Client), c.userID = "" → c'.userID = "" →
        lookupClients (hubRegister (hubRegister m c) c') "" = some c') ∧
    lookupClients (hubRegister [("u", otherW)] anonW) "u" =
      some { otherW with sendBuf := [onlineStatusFrame "" true] } := by
  have hreg : ∀ (m : Registry) (c : Client), c.userID = "" →
      lookupClients (hubRegister m c) "" = some c := by
    intro m c hc
    have := register_lookup_self m c
    rwa [hc] at this
  exact ⟨fun connId => rfl, hreg,
    fun m c c' hc hc' => hreg (hubRegister m c) c' hc', rfl⟩

/-- C9 witness: two successive anonymous registrations on the empty
registry leave the second connection as the sole entry for `""`. -/
theorem C9_witness :
    lookupClients (hubRegister (hubRegister [] anonW) anonW2) "" = some anonW2 :=
  C9_anonymous_register_under_empty_string.2.2.1 [] anonW anonW2 rfl rfl

/-! ## C10: full-buffer handling, broadcast vs targeted send -/

/-- C10. When a presence broadcast reaches a registered connection
whose outbound buffer is full, the frame is silently dropped and the
connection's registry entry is untouched (same client, same buffer);
a targeted send to the same full-buffered connection instead closes it
and removes it from the registry. -/
theorem C10_full_buffer_broadcast_drops_targeted_closes
    (m : Registry) (uid : String) (cl : Client) (msg : WSMessage)
    (uid' : String) (online : Bool)
    (hl : lookupClients m uid = some cl)
    (hfull : cl.sendCap ≤ cl.sendBuf.length)
    (hne : cl.userID ≠ uid') :
    lookupClients (broadcastOnlineStatus m uid' online) uid = some cl ∧
    (hubBroadcastDeliver m uid msg).1 = eraseClients m uid ∧
    lookupClients (hubBroadcastDeliver m uid msg).1 uid = none ∧
    (hubBroadcastDeliver m uid msg).2 = [cl.id] := by
  have hnotlt : ¬ cl.sendBuf.length < cl.sendCap := by omega
  refine ⟨?_, ?_, ?_, ?_⟩
  · rw [lookup_broadcast, hl]
    simp [hne, tryEnqueue, hnotlt]
  · simp [hubBroadcastDeliver, hl, hnotlt]
  · simp [hubBroadcastDeliver, hl, hnotlt, lookup_erase_self]
  · simp [hubBroadcastDeliver, hl, hnotlt]

/-- A connection whose 256-slot outbound buffer is completely full. -/
def fullBufW : Client :=
  { id := 11, userID := "f"
    sendBuf := List.replicate 256 (onlineStatusFrame "x" true), sendCap := 256 }

/-- C10 witness: on a concrete registry holding one full-buffered
connection, a presence broadcast leaves it registered and unchanged
while a targeted send removes it. -/
theorem C10_witness :
    lookupClients (broadcastOnlineStatus [("f", fullBufW)] "g" true) "f" = some fullBufW ∧
    lookupClients (hubBroadcastDeliver [("f", fullBufW)] "f" typingMsgW).1 "f" = none := by
  have h := C10_full_buffer_broadcast_drops_targeted_closes
    [("f", fullBufW)] "f" fullBufW typingMsgW "g" true rfl
    (by simp [fullBufW]) (by decide)
  exact ⟨h.1, h.2.2.1⟩

end ScuffedChat
